import Mathlib

/-!
Shallow embedding of the restaurant-management core
(`restaurant/models.py`, `restaurant/services.py`,
`restaurant/serializers.py`, `restaurant/views.py`).

Conventions of the embedding:
* Django model rows are Lean structures; the database is a structure of
  lists of rows.
* `DecimalField` money values are embedded as `Int` numbers of cents
  (sums of two-decimal-place decimals are exact, so this is faithful).
* Raised exceptions are `Except` errors; `transaction.atomic` is the
  `atomic` combinator below, which discards the state change of a body
  that ends in an error.
-/

deriving instance DecidableEq for Except

namespace RMS

/-- `Order.Status` from `restaurant/models.py`: the four recognized states. -/
inductive Status where
  | pending
  | processing
  | completed
  | cancelled
deriving DecidableEq, Repr

/-- The stored string of each status (the first member of each
`TextChoices` pair). -/
def Status.value : Status → String
  | .pending => "PENDING"
  | .processing => "PROCESSING"
  | .completed => "COMPLETED"
  | .cancelled => "CANCELLED"

/-- Parse a stored status string; `none` for a string outside
`Status.values`. -/
def statusOfString? (s : String) : Option Status :=
  if s = "PENDING" then some .pending
  else if s = "PROCESSING" then some .processing
  else if s = "COMPLETED" then some .completed
  else if s = "CANCELLED" then some .cancelled
  else none

/-- `MenuItem` row: identity, price in cents, active flag. -/
structure MenuItem where
  id : Nat
  price : Int
  is_active : Bool
deriving DecidableEq, Repr

/-- `InventoryItem` row (the stock ledger entry): one per menu item,
non-negative quantity and threshold (`PositiveIntegerField`). -/
structure InventoryItem where
  menu_item : Nat
  quantity : Int
  threshold : Int
deriving DecidableEq, Repr

/-- The two `ValidationError`s raised by `InventoryItem.decrease` and
`InventoryItem.increase`. -/
inductive StockError where
  | invalidAmount
  | insufficientStock
deriving DecidableEq, Repr

/-- `InventoryItem.decrease` from `restaurant/models.py`: reject a
non-positive amount, reject an amount above the current quantity,
otherwise subtract and persist. -/
def InventoryItem.decrease (inv : InventoryItem) (amount : Int) :
    Except StockError InventoryItem :=
  if amount ≤ 0 then .error .invalidAmount
  else if amount > inv.quantity then .error .insufficientStock
  else .ok { inv with quantity := inv.quantity - amount }

/-- `InventoryItem.increase` from `restaurant/models.py`. -/
def InventoryItem.increase (inv : InventoryItem) (amount : Int) :
    Except StockError InventoryItem :=
  if amount ≤ 0 then .error .invalidAmount
  else .ok { inv with quantity := inv.quantity + amount }

/-- An operation of the stock ledger. -/
inductive StockOp where
  | inc (amount : Int)
  | dec (amount : Int)
deriving DecidableEq, Repr

/-- Run one ledger operation, returning the raised error if any. -/
def applyStockOp (inv : InventoryItem) : StockOp → Except StockError InventoryItem
  | .inc a => inv.increase a
  | .dec a => inv.decrease a

/-- One ledger step: a failing operation leaves the row unchanged
(the raised `ValidationError` aborts before any write). -/
def stepStockOp (inv : InventoryItem) (op : StockOp) : InventoryItem :=
  match applyStockOp inv op with
  | .ok inv2 => inv2
  | .error _ => inv

/-- Run a sequence of ledger operations; the states this reaches are the
reachable states of one stock ledger entry. -/
def runStockOps (inv : InventoryItem) : List StockOp → InventoryItem
  | [] => inv
  | op :: ops => runStockOps (stepStockOp inv op) ops

/-- The quantity an operation would naively produce, ignoring the guards. -/
def StockOp.naiveResult (q : Int) : StockOp → Int
  | .inc a => q + a
  | .dec a => q - a

/-- `Reservation` row: primary key, table reference, half-open time slot
(times as integers, e.g. minutes since an epoch). -/
structure Reservation where
  pk : Nat
  table : Nat
  start_time : Int
  end_time : Int
deriving DecidableEq, Repr

/-- `check_table_availability` from `restaurant/services.py`: filter the
persisted reservations of the table by the range-overlap condition
`start_time < end_time_req` and `end_time > start_time_req`; when the
optional excluded id is truthy (Python `if exclude_reservation_id:`),
drop the row with that primary key; available iff no conflict remains. -/
def check_table_availability (reservations : List Reservation) (table : Nat)
    (start_time end_time : Int) (exclude_reservation_id : Option Nat) : Bool :=
  let conflicts := reservations.filter fun (r : Reservation) =>
    r.table == table && decide (r.start_time < end_time)
      && decide (r.end_time > start_time)
  let conflicts2 :=
    match exclude_reservation_id with
    | some i =>
      if i ≠ 0 then conflicts.filter (fun (r : Reservation) => r.pk != i)
      else conflicts
    | none => conflicts
  conflicts2.isEmpty

/-- `OrderLine` row: menu item reference and quantity. -/
structure OrderLine where
  menu_item : Nat
  quantity : Int
deriving DecidableEq, Repr

/-- `Order` row with its owned lines. -/
structure Order where
  id : Nat
  status : Status
  total_amount : Int
  lines : List OrderLine
deriving DecidableEq, Repr

/-- Set the status field (the assignment inside `mark_status`). -/
def Order.setStatus (o : Order) (st : Status) : Order :=
  { o with status := st }

/-- `Order.mark_status` from `restaurant/models.py`: reject a string
outside `Status.values`, otherwise set and persist only the status.
The current status is never inspected. -/
def Order.mark_status (o : Order) (s : String) : Except String Order :=
  match statusOfString? s with
  | some st => .ok (o.setStatus st)
  | none => .error "Invalid order status"

/-- Look up a menu item by id (foreign-key dereference). -/
def lookupMenu (menus : List MenuItem) (id : Nat) : Option MenuItem :=
  menus.find? (fun m => m.id == id)

/-- `OrderLine.line_total`: current menu price times quantity, read at
computation time from the menu relation. -/
def lineTotal (menus : List MenuItem) (l : OrderLine) : Int :=
  ((lookupMenu menus l.menu_item).map MenuItem.price).getD 0 * l.quantity

/-- The sum of `line_total` over a list of lines. -/
def computeTotal (menus : List MenuItem) (lines : List OrderLine) : Int :=
  (lines.map (lineTotal menus)).sum

/-- `Order.recalculate_total`: sum `line_total` over the current lines,
persist only the total field, return the computed total. -/
def Order.recalculate_total (menus : List MenuItem) (o : Order) : Order × Int :=
  let total := computeTotal menus o.lines
  ({ o with total_amount := total }, total)

/-- Look up the stock ledger entry of a menu item
(`InventoryItem.objects.get(menu_item=...)`, one-to-one). -/
def lookupInventory (inv : List InventoryItem) (menu_item : Nat) :
    Option InventoryItem :=
  inv.find? (fun i => i.menu_item == menu_item)

/-- Persist a modified stock ledger entry over the inventory relation. -/
def updateInventory (inv : List InventoryItem) (item : InventoryItem) :
    List InventoryItem :=
  inv.map (fun i => if i.menu_item == item.menu_item then item else i)

/-- The `InventoryError` cases raised by `process_order`
in `restaurant/services.py`. -/
inductive InventoryErr where
  | emptyOrder
  | missingInventory (menu_item : Nat)
  | insufficientStock (menu_item : Nat) (requested available : Int)
deriving DecidableEq, Repr

/-- What can escape `process_order`: an `InventoryError` (caught by the
view) or a `ValidationError` out of `decrease` (not an `InventoryError`,
so not caught by the view). -/
inductive FulfillErr where
  | inventoryError (e : InventoryErr)
  | decreaseFailed (e : StockError)
deriving DecidableEq, Repr

/-- Observable calls of a fulfillment run, in execution order. -/
inductive Event where
  | evDecrease (menu_item : Nat) (amount : Int)
  | evMarkStatus (s : Status)
  | evRecalculate
deriving DecidableEq, Repr

/-- The per-line loop of `process_order`: lock and fetch the entry
(`DoesNotExist` becomes `missingInventory`), compare quantities, then
call `decrease`; the updated entry is persisted before the next line. -/
def fulfillLines (inv : List InventoryItem) :
    List OrderLine → Except FulfillErr (List InventoryItem × List Event)
  | [] => .ok (inv, [])
  | l :: ls =>
    match lookupInventory inv l.menu_item with
    | none => .error (.inventoryError (.missingInventory l.menu_item))
    | some item =>
      if item.quantity < l.quantity then
        .error (.inventoryError
          (.insufficientStock l.menu_item l.quantity item.quantity))
      else
        match item.decrease l.quantity with
        | .error e => .error (.decreaseFailed e)
        | .ok item2 =>
          match fulfillLines (updateInventory inv item2) ls with
          | .error e => .error e
          | .ok (inv2, evs) =>
            .ok (inv2, Event.evDecrease l.menu_item l.quantity :: evs)

/-- `process_order` from `restaurant/services.py`: reject an empty order,
deduct inventory line by line, then `mark_status(PROCESSING)` followed by
`recalculate_total()`. Returns the new inventory relation, the final
order row, and the trace of calls. -/
def process_order (menus : List MenuItem) (inv : List InventoryItem)
    (o : Order) : Except FulfillErr (List InventoryItem × Order × List Event) :=
  if o.lines.isEmpty then .error (.inventoryError .emptyOrder)
  else
    match fulfillLines inv o.lines with
    | .error e => .error e
    | .ok (inv2, evs) =>
      let o1 := o.setStatus .processing
      let (o2, _) := o1.recalculate_total menus
      .ok (inv2, o2, evs ++ [Event.evMarkStatus .processing, Event.evRecalculate])

/-- `mark_status` at the literal string PROCESSING reduces to setting the
status, justifying the direct `setStatus` call inside `process_order`. -/
theorem mark_status_processing (o : Order) :
    o.mark_status "PROCESSING" = .ok (o.setStatus .processing) := rfl

/-- The database state the order endpoints touch. -/
structure DB where
  inventory : List InventoryItem
  orders : List Order
deriving DecidableEq, Repr

/-- `transaction.atomic`: run the body; if it ends in an exception the
whole state change is rolled back and the exception propagates. -/
def atomic (body : DB → DB × Except ε α) (db : DB) : DB × Except ε α :=
  match body db with
  | (db2, .ok a) => (db2, .ok a)
  | (_, .error e) => (db, .error e)

/-- Persist a modified order row over the orders relation. -/
def replaceOrder (orders : List Order) (o : Order) : List Order :=
  orders.map (fun x => if x.id == o.id then o else x)

/-- A serializer-level error: a DRF `ValidationError` message or a raised
Python `AttributeError`. -/
inductive SerErr where
  | validationError (msg : String)
  | attributeError
deriving DecidableEq, Repr

/-- Field validation of one submitted order line
(`OrderLineSerializer`): the menu item must exist in the active-items
queryset and the quantity field has `min_value=1`. -/
def orderLineValid (menus : List MenuItem) (l : OrderLine) : Bool :=
  (((lookupMenu menus l.menu_item).map MenuItem.is_active).getD false)
    && decide (1 ≤ l.quantity)

/-- `OrderSerializer.create`: insert the order (status defaults to
Pending, total to 0), bulk-create its lines, then compute the sum of
price times quantity over the submitted lines and persist it as the
total. -/
def serializerCreateOrder (menus : List MenuItem) (oid : Nat)
    (lines : List OrderLine) : Order :=
  let o : Order := { id := oid, status := .pending, total_amount := 0, lines := lines }
  { o with total_amount := computeTotal menus lines }

/-- The serializer save path for orders: `validate_lines` rejects an
empty list, each line passes `OrderLineSerializer` field validation,
then `create` runs. -/
def orderSerializerSave (menus : List MenuItem) (oid : Nat)
    (lines : List OrderLine) : Except SerErr Order :=
  if lines.isEmpty then
    .error (.validationError "Provide at least one order line!")
  else if !(lines.all (orderLineValid menus)) then
    .error (.validationError "Invalid order line.")
  else
    .ok (serializerCreateOrder menus oid lines)

/-- `process_order` as a transactional state update: its own
`transaction.atomic` block (a savepoint inside the view's transaction)
whose deductions and order writes are discarded when it raises. -/
def processOrderTx (menus : List MenuItem) (o : Order) (db : DB) :
    DB × Except FulfillErr Order :=
  atomic (fun db0 =>
    match process_order menus db0.inventory o with
    | .error e => (db0, .error e)
    | .ok (inv2, o2, _) =>
      ({ inventory := inv2, orders := replaceOrder db0.orders o2 }, .ok o2)) db

/-- What escapes `OrderViewSet.perform_create`: the DRF
`ValidationError` raised from the caught `InventoryError`, or the
uncaught `ValidationError` out of `decrease`. -/
inductive ApiErr where
  | validationError (e : InventoryErr)
  | uncaught (e : StockError)
deriving DecidableEq, Repr

/-- `OrderViewSet.perform_create` from `restaurant/views.py`: inside one
`transaction.atomic` block, save the order through the serializer, run
`process_order`; on `InventoryError` mark the order Cancelled and
re-raise as a DRF `ValidationError` — which then escapes the same atomic
block. -/
def perform_create (menus : List MenuItem) (oid : Nat)
    (lines : List OrderLine) (db : DB) : DB × Except ApiErr Order :=
  atomic (fun db0 =>
    let order := serializerCreateOrder menus oid lines
    let db1 : DB := { db0 with orders := db0.orders ++ [order] }
    match processOrderTx menus order db1 with
    | (db2, .ok o2) => (db2, .ok o2)
    | (db2, .error (.inventoryError e)) =>
      let cancelled := order.setStatus .cancelled
      let db3 : DB := { db2 with orders := replaceOrder db2.orders cancelled }
      (db3, .error (.validationError e))
    | (db2, .error (.decreaseFailed e)) => (db2, .error (.uncaught e))) db

/-- The manager `complete` action: fetch the order by primary key and
`mark_status(COMPLETED)`, whatever its current status. -/
def completeEndpoint (db : DB) (pk : Nat) : DB × Except String String :=
  match db.orders.find? (fun o => o.id == pk) with
  | none => (db, .error "404")
  | some o =>
    match o.mark_status "COMPLETED" with
    | .ok o2 => ({ db with orders := replaceOrder db.orders o2 }, .ok "completed")
    | .error e => (db, .error e)

/-- The manager `cancel` action: fetch the order by primary key and
`mark_status(CANCELLED)`, whatever its current status. -/
def cancelEndpoint (db : DB) (pk : Nat) : DB × Except String String :=
  match db.orders.find? (fun o => o.id == pk) with
  | none => (db, .error "404")
  | some o =>
    match o.mark_status "CANCELLED" with
    | .ok o2 => ({ db with orders := replaceOrder db.orders o2 }, .ok "cancelled")
    | .error e => (db, .error e)

/-- The validated data of `ReservationSerializer.validate`; absent keys
(`attrs.get(...)` returning `None`, falsy) are `none`. -/
structure ReservationAttrs where
  table : Option Nat
  start_time : Option Int
  end_time : Option Int
deriving DecidableEq, Repr

/-- The first guard of `ReservationSerializer.validate`:
`start and end and start >= end`. -/
def badRange (attrs : ReservationAttrs) : Bool :=
  match attrs.start_time, attrs.end_time with
  | some s, some e => s ≥ e
  | _, _ => false

/-- `ReservationSerializer.validate` from `restaurant/serializers.py`:
reject a non-increasing range; then, when table, start and end are all
present, evaluate `self.instance.pk or None` — an `AttributeError` when
`self.instance` is `None` (the create path) — and reject the attrs when
`check_table_availability` reports a conflict. -/
def reservationValidate (reservations : List Reservation)
    (inst : Option Reservation) (attrs : ReservationAttrs) :
    Except SerErr ReservationAttrs :=
  if badRange attrs then
    .error (.validationError "start_time must be before end_time.")
  else if attrs.table.isSome && attrs.start_time.isSome && attrs.end_time.isSome then
    match inst with
    | none => .error .attributeError
    | some r =>
      let reservation_id : Option Nat := if r.pk ≠ 0 then some r.pk else none
      if !check_table_availability reservations (attrs.table.getD 0)
          (attrs.start_time.getD 0) (attrs.end_time.getD 0) reservation_id then
        .error (.validationError "Table already reserved for the selected time range!")
      else .ok attrs
  else .ok attrs

/-- The reservation create path: the serializer runs `validate` with
`self.instance = None`; only validated attrs are persisted. -/
def reservationCreatePath (reservations : List Reservation)
    (attrs : ReservationAttrs) (newPk : Nat) :
    Except SerErr (List Reservation) :=
  match reservationValidate reservations none attrs with
  | .error e => .error e
  | .ok a =>
    .ok (reservations ++
      [{ pk := newPk, table := a.table.getD 0,
         start_time := a.start_time.getD 0, end_time := a.end_time.getD 0 }])

/-- Whether a call `a` happens strictly before a call `b` in a trace:
scanning left to right, an occurrence of `a` is found first and `b`
occurs somewhere after it. -/
def occursStrictlyBefore (a b : Event) : List Event → Bool
  | [] => false
  | x :: xs =>
    if x = a then xs.any (fun y => decide (y = b))
    else if x = b then false
    else occursStrictlyBefore a b xs

/-! ## Theorems -/

/-- C2: for every stock ledger entry and integer amount, `decrease` fails
with InvalidAmount when the amount is non-positive, fails with
InsufficientStock when it exceeds the current quantity, otherwise sets
quantity to quantity minus amount and persists it; a failing call leaves
the entry unchanged. -/
theorem decrease_spec (inv : InventoryItem) (a : Int) :
    (a ≤ 0 → inv.decrease a = .error .invalidAmount)
    ∧ (0 < a → inv.quantity < a → inv.decrease a = .error .insufficientStock)
    ∧ (0 < a → a ≤ inv.quantity →
        inv.decrease a = .ok { inv with quantity := inv.quantity - a })
    ∧ (∀ e, inv.decrease a = .error e → stepStockOp inv (.dec a) = inv) := by
  refine ⟨fun h => ?_, fun h1 h2 => ?_, fun h1 h2 => ?_, fun e he => ?_⟩
  · simp only [InventoryItem.decrease, if_pos h]
  · simp only [InventoryItem.decrease, if_neg (by omega : ¬ a ≤ 0),
      if_pos (by omega : a > inv.quantity)]
  · simp only [InventoryItem.decrease, if_neg (by omega : ¬ a ≤ 0),
      if_neg (by omega : ¬ a > inv.quantity)]
  · simp only [stepStockOp, applyStockOp, he]

theorem decrease_spec_witness :
    (⟨1, 10, 2⟩ : InventoryItem).decrease 0 = .error .invalidAmount
    ∧ (⟨1, 10, 2⟩ : InventoryItem).decrease 20 = .error .insufficientStock
    ∧ (⟨1, 10, 2⟩ : InventoryItem).decrease 3 =
        .ok { (⟨1, 10, 2⟩ : InventoryItem) with
                quantity := (⟨1, 10, 2⟩ : InventoryItem).quantity - 3 }
    ∧ stepStockOp ⟨1, 10, 2⟩ (.dec 0) = ⟨1, 10, 2⟩ :=
  ⟨(decrease_spec ⟨1, 10, 2⟩ 0).1 (by decide),
   (decrease_spec ⟨1, 10, 2⟩ 20).2.1 (by decide) (by decide),
   (decrease_spec ⟨1, 10, 2⟩ 3).2.2.1 (by decide) (by decide),
   (decrease_spec ⟨1, 10, 2⟩ 0).2.2.2 .invalidAmount
     ((decrease_spec ⟨1, 10, 2⟩ 0).1 (by decide))⟩

/-- One ledger step keeps the quantity non-negative. -/
theorem stepStockOp_nonneg (inv : InventoryItem) (op : StockOp)
    (h : 0 ≤ inv.quantity) : 0 ≤ (stepStockOp inv op).quantity := by
  cases op with
  | inc a =>
    by_cases ha : a ≤ 0
    · simp [stepStockOp, applyStockOp, InventoryItem.increase, ha, h]
    · simp only [stepStockOp, applyStockOp, InventoryItem.increase, if_neg ha]
      omega
  | dec a =>
    by_cases ha : a ≤ 0
    · simp [stepStockOp, applyStockOp, InventoryItem.decrease, ha, h]
    · by_cases hq : a > inv.quantity
      · simp [stepStockOp, applyStockOp, InventoryItem.decrease, ha, hq, h]
      · simp only [stepStockOp, applyStockOp, InventoryItem.decrease,
          if_neg ha, if_neg hq]
        omega

/-- Any sequence of ledger operations keeps the quantity non-negative. -/
theorem runStockOps_nonneg (inv : InventoryItem) (ops : List StockOp)
    (h : 0 ≤ inv.quantity) : 0 ≤ (runStockOps inv ops).quantity := by
  induction ops generalizing inv with
  | nil => exact h
  | cons op ops ih => exact ih _ (stepStockOp_nonneg inv op h)

/-- An operation whose naive result would be negative raises and leaves
the entry unchanged. -/
theorem stockOp_violation (inv : InventoryItem) (op : StockOp)
    (h : 0 ≤ inv.quantity) (hviol : op.naiveResult inv.quantity < 0) :
    (∃ e, applyStockOp inv op = .error e) ∧ stepStockOp inv op = inv := by
  cases op with
  | inc a =>
    have ha : a ≤ 0 := by
      simp only [StockOp.naiveResult] at hviol; omega
    refine ⟨⟨.invalidAmount, ?_⟩, ?_⟩
    · simp [applyStockOp, InventoryItem.increase, ha]
    · simp [stepStockOp, applyStockOp, InventoryItem.increase, ha]
  | dec a =>
    have hq : a > inv.quantity := by
      simp only [StockOp.naiveResult] at hviol; omega
    have ha : ¬ a ≤ 0 := by omega
    refine ⟨⟨.insufficientStock, ?_⟩, ?_⟩
    · simp [applyStockOp, InventoryItem.decrease, ha, hq]
    · simp [stepStockOp, applyStockOp, InventoryItem.decrease, ha, hq]

/-- C3: starting from a non-negative quantity, every reachable state of a
stock ledger entry has a non-negative quantity, and any increase or
decrease whose naive result would be negative fails and leaves the
quantity unchanged. -/
theorem stock_ledger_invariant :
    (∀ (inv : InventoryItem) (ops : List StockOp), 0 ≤ inv.quantity →
      0 ≤ (runStockOps inv ops).quantity)
    ∧ (∀ (inv : InventoryItem) (op : StockOp), 0 ≤ inv.quantity →
        op.naiveResult inv.quantity < 0 →
        (∃ e, applyStockOp inv op = .error e) ∧ stepStockOp inv op = inv) :=
  ⟨runStockOps_nonneg, stockOp_violation⟩

theorem stock_ledger_invariant_witness :
    0 ≤ (runStockOps ⟨1, 5, 2⟩ [.dec 2, .inc 3, .dec 10]).quantity
    ∧ (∃ e, applyStockOp ⟨1, 5, 2⟩ (.dec 9) = .error e)
    ∧ stepStockOp ⟨1, 5, 2⟩ (.dec 9) = ⟨1, 5, 2⟩ :=
  ⟨stock_ledger_invariant.1 ⟨1, 5, 2⟩ [.dec 2, .inc 3, .dec 10] (by decide),
   (stock_ledger_invariant.2 ⟨1, 5, 2⟩ (.dec 9) (by decide) (by decide)).1,
   (stock_ledger_invariant.2 ⟨1, 5, 2⟩ (.dec 9) (by decide) (by decide)).2⟩

/-- A filtered list is non-empty exactly when some member passes the
filter. -/
theorem isEmpty_filter_eq_false_iff (l : List α) (p : α → Bool) :
    (l.filter p).isEmpty = false ↔ ∃ x ∈ l, p x = true := by
  rw [List.isEmpty_eq_false]
  constructor
  · intro h
    rcases List.exists_mem_of_ne_nil _ h with ⟨x, hx⟩
    rcases List.mem_filter.mp hx with ⟨h1, h2⟩
    exact ⟨x, h1, h2⟩
  · rintro ⟨x, h1, h2⟩
    exact List.ne_nil_of_mem (List.mem_filter.mpr ⟨h1, h2⟩)

/-- C4: `check_table_availability` returns false exactly when some
persisted reservation of the table, other than the excluded one,
satisfies the half-open intersection rule (its start before the
requested end and its end after the requested start); consequently a
request that only meets reservations ending at its start or starting at
its end is reported available. Primary keys are Django autofields, so an
excluded id is positive. -/
theorem check_table_availability_spec (reservations : List Reservation)
    (table : Nat) (s e : Int) (exclude : Option Nat)
    (hx : ∀ i, exclude = some i → 0 < i) :
    (check_table_availability reservations table s e exclude = false ↔
      ∃ r ∈ reservations, r.table = table ∧ some r.pk ≠ exclude ∧
        r.start_time < e ∧ r.end_time > s)
    ∧ ((∀ r ∈ reservations, r.table = table →
          r.end_time ≤ s ∨ e ≤ r.start_time) →
        check_table_availability reservations table s e exclude = true) := by
  have key : check_table_availability reservations table s e exclude = false ↔
      ∃ r ∈ reservations, r.table = table ∧ some r.pk ≠ exclude ∧
        r.start_time < e ∧ r.end_time > s := by
    cases exclude with
    | none =>
      simp only [check_table_availability]
      rw [isEmpty_filter_eq_false_iff]
      refine exists_congr fun r => ?_
      simp only [Bool.and_eq_true, beq_iff_eq, decide_eq_true_eq, ne_eq,
        Option.some_ne_none, not_false_iff]
      tauto
    | some i =>
      have hi : i ≠ 0 := by
        have := hx i rfl
        omega
      simp only [check_table_availability, if_pos hi]
      rw [List.filter_filter, isEmpty_filter_eq_false_iff]
      refine exists_congr fun r => ?_
      simp only [Bool.and_eq_true, beq_iff_eq, decide_eq_true_eq, bne_iff_ne,
        ne_eq, Option.some.injEq]
      tauto
  refine ⟨key, fun hall => ?_⟩
  cases hc : check_table_availability reservations table s e exclude with
  | true => rfl
  | false =>
    rcases key.mp hc with ⟨r, hr, htab, _, h1, h2⟩
    rcases hall r hr htab with h3 | h3 <;> omega

theorem check_table_availability_spec_witness :
    check_table_availability [⟨1, 1, 600, 660⟩] 1 630 690 none = false
    ∧ check_table_availability [⟨1, 1, 600, 660⟩] 1 660 720 none = true :=
  ⟨(check_table_availability_spec [⟨1, 1, 600, 660⟩] 1 630 690 none
      (by simp)).1.mpr
    ⟨⟨1, 1, 600, 660⟩, by simp, rfl, by simp, by decide, by decide⟩,
   (check_table_availability_spec [⟨1, 1, 600, 660⟩] 1 660 720 none
      (by simp)).2
    (by
      intro r hr htab
      simp only [List.mem_singleton] at hr
      subst hr
      left
      decide)⟩

/-- C9: on the create path (`self.instance = None`), once table, start
and end are present and the range check passes, `validate` evaluates
`self.instance.pk` and raises `AttributeError`, for every state of the
persisted reservations — so the availability check never runs and no
reservation is persisted through this path. -/
theorem reservation_create_attribute_error (reservations : List Reservation)
    (t newPk : Nat) (s e : Int) (hse : s < e) :
    reservationValidate reservations none ⟨some t, some s, some e⟩
      = .error .attributeError
    ∧ reservationCreatePath reservations ⟨some t, some s, some e⟩ newPk
      = .error .attributeError := by
  have hbad : badRange ⟨some t, some s, some e⟩ = false := by
    simp only [badRange, decide_eq_false_iff_not]
    omega
  constructor
  · simp [reservationValidate, hbad]
  · simp [reservationCreatePath, reservationValidate, hbad]

theorem reservation_create_attribute_error_witness :
    reservationValidate [⟨1, 1, 600, 660⟩] none ⟨some 1, some 700, some 760⟩
      = .error .attributeError
    ∧ reservationCreatePath [⟨1, 1, 600, 660⟩] ⟨some 1, some 700, some 760⟩ 2
      = .error .attributeError :=
  reservation_create_attribute_error [⟨1, 1, 600, 660⟩] 1 2 700 760 (by decide)

/-- Inverting a successful `decrease`: the guards passed and the
quantity went down by the amount. -/
theorem decrease_ok_inv (item item2 : InventoryItem) (a : Int)
    (h : item.decrease a = .ok item2) :
    0 < a ∧ a ≤ item.quantity
    ∧ item2 = { item with quantity := item.quantity - a } := by
  unfold InventoryItem.decrease at h
  split at h
  · cases h
  · split at h
    · cases h
    · injection h with h2
      exact ⟨by omega, by omega, h2.symm⟩

/-- Inverting one successful step of the fulfillment loop. -/
theorem fulfillLines_cons_inv (inv inv2 : List InventoryItem) (l : OrderLine)
    (ls : List OrderLine) (evs : List Event)
    (h : fulfillLines inv (l :: ls) = .ok (inv2, evs)) :
    ∃ item evs2,
      lookupInventory inv l.menu_item = some item
      ∧ item.menu_item = l.menu_item
      ∧ 0 < l.quantity ∧ l.quantity ≤ item.quantity
      ∧ fulfillLines
          (updateInventory inv
            { item with quantity := item.quantity - l.quantity }) ls
          = .ok (inv2, evs2)
      ∧ evs = Event.evDecrease l.menu_item l.quantity :: evs2 := by
  unfold fulfillLines at h
  cases hlk : lookupInventory inv l.menu_item with
  | none => rw [hlk] at h; cases h
  | some item =>
    simp only [hlk] at h
    split at h
    · cases h
    · cases hd : item.decrease l.quantity with
      | error e =>
        simp only [hd] at h
        exact Except.noConfusion h
      | ok item2 =>
        simp only [hd] at h
        rcases decrease_ok_inv item item2 l.quantity hd with ⟨h1, h2, h3⟩
        subst h3
        cases hrec : fulfillLines
            (updateInventory inv
              { item with quantity := item.quantity - l.quantity }) ls with
        | error e =>
          simp only [hrec] at h
          exact Except.noConfusion h
        | ok p =>
          obtain ⟨inv2', evs2⟩ := p
          simp only [hrec, Except.ok.injEq, Prod.mk.injEq] at h
          obtain ⟨hi2, he2⟩ := h
          have hlk2 : List.find? (fun i => i.menu_item == l.menu_item) inv
              = some item := hlk
          have hp := List.find?_some hlk2
          have hmi : item.menu_item = l.menu_item := beq_iff_eq.mp hp
          exact ⟨item, evs2, rfl, hmi, h1, h2, hi2 ▸ hrec, he2.symm⟩

/-- Updating an entry of a different menu item does not change what a
lookup finds. -/
theorem lookupInventory_update_ne (inv : List InventoryItem)
    (item : InventoryItem) (m : Nat) (hm : m ≠ item.menu_item) :
    lookupInventory (updateInventory inv item) m = lookupInventory inv m := by
  unfold lookupInventory updateInventory
  induction inv with
  | nil => rfl
  | cons i is ih =>
    simp only [List.map_cons]
    by_cases hi : i.menu_item = item.menu_item
    · have h1 : ¬ ((item.menu_item == m) = true) := by
        simp only [beq_iff_eq]
        omega
      have h2 : ¬ ((i.menu_item == m) = true) := by
        simp only [beq_iff_eq]
        omega
      rw [if_pos (beq_iff_eq.mpr hi),
        List.find?_cons_of_neg (p := fun (i : InventoryItem) => i.menu_item == m) _ h1,
        List.find?_cons_of_neg (p := fun (i : InventoryItem) => i.menu_item == m) _ h2]
      exact ih
    · rw [if_neg (fun h => hi (beq_iff_eq.mp h))]
      by_cases him : (i.menu_item == m) = true
      · rw [List.find?_cons_of_pos (p := fun (i : InventoryItem) => i.menu_item == m) _ him,
          List.find?_cons_of_pos (p := fun (i : InventoryItem) => i.menu_item == m) _ him]
      · rw [List.find?_cons_of_neg (p := fun (i : InventoryItem) => i.menu_item == m) _ him,
          List.find?_cons_of_neg (p := fun (i : InventoryItem) => i.menu_item == m) _ him]
        exact ih

/-- Updating the entry a lookup finds makes the lookup return the
updated entry. -/
theorem lookupInventory_update_self (inv : List InventoryItem)
    (item item2 : InventoryItem) (m : Nat)
    (hfind : lookupInventory inv m = some item) (hm : item2.menu_item = m) :
    lookupInventory (updateInventory inv item2) m = some item2 := by
  unfold lookupInventory updateInventory at *
  induction inv with
  | nil => cases hfind
  | cons i is ih =>
    simp only [List.map_cons]
    by_cases him : (i.menu_item == m) = true
    · have hcond : (i.menu_item == item2.menu_item) = true := by
        simp only [beq_iff_eq] at *
        omega
      rw [if_pos hcond,
        List.find?_cons_of_pos (p := fun (i : InventoryItem) => i.menu_item == m) _
          (show (item2.menu_item == m) = true by
            simp only [beq_iff_eq]; omega)]
    · rw [List.find?_cons_of_neg (p := fun (i : InventoryItem) => i.menu_item == m) _ him]
        at hfind
      by_cases hcond : (i.menu_item == item2.menu_item) = true
      · exfalso
        simp only [beq_iff_eq] at him hcond
        exact him (by omega)
      · rw [if_neg hcond,
          List.find?_cons_of_neg (p := fun (i : InventoryItem) => i.menu_item == m) _ him]
        exact ih hfind

/-- Fulfillment leaves the entries of menu items outside the order's
lines untouched. -/
theorem fulfillLines_preserves (lines : List OrderLine) :
    ∀ (inv inv2 : List InventoryItem) (evs : List Event),
      fulfillLines inv lines = .ok (inv2, evs) →
      ∀ m, (∀ l ∈ lines, l.menu_item ≠ m) →
        lookupInventory inv2 m = lookupInventory inv m := by
  induction lines with
  | nil =>
    intro inv inv2 evs h m _
    unfold fulfillLines at h
    simp only [Except.ok.injEq, Prod.mk.injEq] at h
    rw [← h.1]
  | cons l ls ih =>
    intro inv inv2 evs h m hm
    rcases fulfillLines_cons_inv inv inv2 l ls evs h with
      ⟨item, evs2, _, hmi, _, _, hrec, _⟩
    have hne : m ≠
        ({ item with quantity := item.quantity - l.quantity } :
          InventoryItem).menu_item := by
      show m ≠ item.menu_item
      have := hm l (List.mem_cons_self l ls)
      omega
    rw [ih _ _ _ hrec m (fun x hx => hm x (List.mem_cons_of_mem _ hx)),
      lookupInventory_update_ne _ _ _ hne]

/-- The trace of a successful fulfillment loop is one decrease per line,
in line order. -/
theorem fulfillLines_trace (lines : List OrderLine) :
    ∀ (inv inv2 : List InventoryItem) (evs : List Event),
      fulfillLines inv lines = .ok (inv2, evs) →
      evs = lines.map fun l => Event.evDecrease l.menu_item l.quantity := by
  induction lines with
  | nil =>
    intro inv inv2 evs h
    unfold fulfillLines at h
    simp only [Except.ok.injEq, Prod.mk.injEq] at h
    rw [← h.2]
    rfl
  | cons l ls ih =>
    intro inv inv2 evs h
    rcases fulfillLines_cons_inv inv inv2 l ls evs h with
      ⟨item, evs2, _, _, _, _, hrec, hevs⟩
    rw [hevs, ih _ _ _ hrec, List.map_cons]

/-- A successful fulfillment decrements each referenced entry by its
line's quantity (lines reference distinct menu items, per the
`unique_together` constraint on order lines). -/
theorem fulfillLines_decrements (lines : List OrderLine) :
    ∀ (inv inv2 : List InventoryItem) (evs : List Event),
      (lines.map OrderLine.menu_item).Nodup →
      fulfillLines inv lines = .ok (inv2, evs) →
      ∀ l ∈ lines, ∀ item, lookupInventory inv l.menu_item = some item →
        lookupInventory inv2 l.menu_item =
          some { item with quantity := item.quantity - l.quantity } := by
  induction lines with
  | nil =>
    intro inv inv2 evs _ _ l hl
    cases hl
  | cons lhd ls ih =>
    intro inv inv2 evs hnd h l hl item hitem
    rcases fulfillLines_cons_inv inv inv2 lhd ls evs h with
      ⟨item0, evs2, hlk, hmi, _, _, hrec, _⟩
    have hnd2 : (∀ x ∈ ls, ¬ x.menu_item = lhd.menu_item)
        ∧ (ls.map OrderLine.menu_item).Nodup := by
      simpa using hnd
    obtain ⟨hnotmem, htail⟩ := hnd2
    rcases List.mem_cons.mp hl with rfl | hl2
    · have hv : item = item0 :=
        (Option.some.inj (hlk.symm.trans hitem)).symm
      subst hv
      rw [fulfillLines_preserves ls _ _ _ hrec l.menu_item hnotmem]
      exact lookupInventory_update_self inv item
        { item with quantity := item.quantity - l.quantity } l.menu_item
        hlk hmi
    · have hne : l.menu_item ≠
          ({ item0 with quantity := item0.quantity - lhd.quantity } :
            InventoryItem).menu_item := by
        show l.menu_item ≠ item0.menu_item
        have := hnotmem l hl2
        omega
      have hlook : lookupInventory
          (updateInventory inv
            { item0 with quantity := item0.quantity - lhd.quantity })
          l.menu_item = some item := by
        rw [lookupInventory_update_ne _ _ _ hne]
        exact hitem
      exact ih _ _ _ htail hrec l hl2 item hlook

/-- C5 (amended): when every line passes, `process_order` calls
`mark_status(Processing)` and then `recalculate_total()` — in that
order, the reverse of the claimed order — leaving the order in status
Processing with `total_amount` the sum of menu-item price times line
quantity over its lines, and each referenced stock entry decremented by
its line's quantity (lines reference distinct menu items per the
`unique_together` constraint). -/
theorem process_order_success_state (menus : List MenuItem)
    (inv inv2 : List InventoryItem) (o o2 : Order) (evs : List Event)
    (hnd : (o.lines.map OrderLine.menu_item).Nodup)
    (h : process_order menus inv o = .ok (inv2, o2, evs)) :
    o2.status = .processing
    ∧ o2.total_amount = computeTotal menus o.lines
    ∧ evs = (o.lines.map fun l => Event.evDecrease l.menu_item l.quantity)
        ++ [Event.evMarkStatus .processing, Event.evRecalculate]
    ∧ (∀ l ∈ o.lines, ∀ item, lookupInventory inv l.menu_item = some item →
        lookupInventory inv2 l.menu_item =
          some { item with quantity := item.quantity - l.quantity }) := by
  unfold process_order at h
  split at h
  · cases h
  · cases hf : fulfillLines inv o.lines with
    | error e =>
      simp only [hf] at h
      exact Except.noConfusion h
    | ok p =>
      obtain ⟨inv2', evs'⟩ := p
      simp only [hf, Order.recalculate_total, Order.setStatus,
        Except.ok.injEq, Prod.mk.injEq] at h
      obtain ⟨h1, h2, h3⟩ := h
      subst h1
      refine ⟨?_, ?_, ?_, ?_⟩
      · rw [← h2]
      · rw [← h2]
      · rw [← h3, fulfillLines_trace o.lines inv _ evs' hf]
      · exact fulfillLines_decrements o.lines inv _ evs' hnd hf

theorem process_order_success_state_witness :
    (⟨1, Status.processing, 1400, [⟨1, 2⟩]⟩ : Order).status = .processing
    ∧ (⟨1, Status.processing, 1400, [⟨1, 2⟩]⟩ : Order).total_amount
        = computeTotal [⟨1, 700, true⟩] [⟨1, 2⟩]
    ∧ ([Event.evDecrease 1 2, Event.evMarkStatus .processing,
          Event.evRecalculate] : List Event)
        = (([⟨1, 2⟩] : List OrderLine).map
            fun l => Event.evDecrease l.menu_item l.quantity)
          ++ [Event.evMarkStatus .processing, Event.evRecalculate]
    ∧ (∀ l ∈ ([⟨1, 2⟩] : List OrderLine), ∀ item,
        lookupInventory [⟨1, 5, 1⟩] l.menu_item = some item →
        lookupInventory [⟨1, 3, 1⟩] l.menu_item =
          some { item with quantity := item.quantity - l.quantity }) :=
  process_order_success_state [⟨1, 700, true⟩] [⟨1, 5, 1⟩] [⟨1, 3, 1⟩]
    ⟨1, .pending, 0, [⟨1, 2⟩]⟩ ⟨1, .processing, 1400, [⟨1, 2⟩]⟩
    [Event.evDecrease 1 2, Event.evMarkStatus .processing,
      Event.evRecalculate]
    (by decide) (by decide)

/-- C5 counterexample: at a concrete successful fulfillment the call
trace places `mark_status(Processing)` before `recalculate_total()`, so
the claimed order of the two calls (recalculate first) is false. -/
theorem process_order_recalc_not_before_mark :
    process_order [⟨1, 700, true⟩] [⟨1, 5, 1⟩] ⟨1, .pending, 0, [⟨1, 2⟩]⟩
      = .ok ([⟨1, 3, 1⟩], ⟨1, .processing, 1400, [⟨1, 2⟩]⟩,
          [.evDecrease 1 2, .evMarkStatus .processing, .evRecalculate])
    ∧ occursStrictlyBefore .evRecalculate (.evMarkStatus .processing)
        [.evDecrease 1 2, .evMarkStatus .processing, .evRecalculate] = false
    ∧ occursStrictlyBefore (.evMarkStatus .processing) .evRecalculate
        [.evDecrease 1 2, .evMarkStatus .processing, .evRecalculate]
        = true := by
  decide

/-- Inside the fulfillment loop, a failure out of `decrease` itself is
impossible when every line quantity is at least 1: the loop checks the
stock right before calling it. -/
theorem fulfillLines_no_decrease_failure (lines : List OrderLine) :
    ∀ (inv : List InventoryItem), (∀ l ∈ lines, 1 ≤ l.quantity) →
      ∀ e, fulfillLines inv lines ≠ .error (.decreaseFailed e) := by
  induction lines with
  | nil =>
    intro inv _ e h
    exact Except.noConfusion h
  | cons l ls ih =>
    intro inv hq e h
    unfold fulfillLines at h
    cases hlk : lookupInventory inv l.menu_item with
    | none =>
      simp only [hlk] at h
      simp at h
    | some item =>
      simp only [hlk] at h
      split at h
      · simp at h
      · have h1 : 1 ≤ l.quantity := hq l (List.mem_cons_self l ls)
        have hd : item.decrease l.quantity
            = .ok { item with quantity := item.quantity - l.quantity } := by
          unfold InventoryItem.decrease
          rw [if_neg (by omega), if_neg (by omega)]
        simp only [hd] at h
        cases hrec : fulfillLines (updateInventory inv
            { item with quantity := item.quantity - l.quantity }) ls with
        | error e2 =>
          simp only [hrec] at h
          injection h with h2
          exact ih _ (fun x hx => hq x (List.mem_cons_of_mem _ hx)) e
            (h2 ▸ hrec)
        | ok p =>
          obtain ⟨a, b⟩ := p
          simp only [hrec] at h
          exact Except.noConfusion h

/-- C10: within `process_order` every call to `decrease` receives a line
quantity that is at least 1 (the serializer enforces `min_value=1`) and
at most the just-checked entry quantity, so neither failure branch of
`decrease` (InvalidAmount, InsufficientStock) is reachable from
fulfillment. -/
theorem process_order_decrease_unreachable (menus : List MenuItem)
    (inv : List InventoryItem) (o : Order)
    (hq : ∀ l ∈ o.lines, 1 ≤ l.quantity) (e : StockError) :
    process_order menus inv o ≠ .error (.decreaseFailed e) := by
  intro h
  unfold process_order at h
  split at h
  · simp at h
  · cases hf : fulfillLines inv o.lines with
    | error e2 =>
      simp only [hf] at h
      injection h with h2
      exact fulfillLines_no_decrease_failure o.lines inv hq e (h2 ▸ hf)
    | ok p =>
      obtain ⟨inv2, evs⟩ := p
      simp only [hf] at h
      exact Except.noConfusion h

theorem process_order_decrease_unreachable_witness :
    process_order [⟨1, 700, true⟩] [⟨1, 5, 1⟩] ⟨1, .pending, 0, [⟨1, 2⟩]⟩
      ≠ .error (.decreaseFailed .invalidAmount) :=
  process_order_decrease_unreachable [⟨1, 700, true⟩] [⟨1, 5, 1⟩]
    ⟨1, .pending, 0, [⟨1, 2⟩]⟩ (by decide) .invalidAmount

/-- C7 (amended): every order created through the serializer is in
status Pending with at least one line, but its total amount is already
set during creation to the sum of menu-item price times quantity over
the submitted lines — not left at 0 until `recalculate_total` runs. -/
theorem order_serializer_create_state (menus : List MenuItem) (oid : Nat)
    (lines : List OrderLine) (o : Order)
    (h : orderSerializerSave menus oid lines = .ok o) :
    o.status = .pending ∧ o.lines = lines ∧ lines ≠ []
    ∧ o.total_amount = computeTotal menus lines := by
  unfold orderSerializerSave at h
  split at h
  · cases h
  · rename_i hemp
    split at h
    · cases h
    · injection h with h1
      subst h1
      refine ⟨rfl, rfl, ?_, rfl⟩
      simpa using hemp

theorem order_serializer_create_state_witness :
    (⟨1, Status.pending, 1400, [⟨1, 2⟩]⟩ : Order).status = .pending
    ∧ (⟨1, Status.pending, 1400, [⟨1, 2⟩]⟩ : Order).lines = [⟨1, 2⟩]
    ∧ ([⟨1, 2⟩] : List OrderLine) ≠ []
    ∧ (⟨1, Status.pending, 1400, [⟨1, 2⟩]⟩ : Order).total_amount
        = computeTotal [⟨1, 700, true⟩] [⟨1, 2⟩] :=
  order_serializer_create_state [⟨1, 700, true⟩] 1 [⟨1, 2⟩]
    ⟨1, .pending, 1400, [⟨1, 2⟩]⟩ (by decide)

/-- C7 counterexample: an order created by the serializer from one line
of quantity 2 at price 700 comes out of creation with total 1400, not 0,
although `recalculate_total` has never been invoked on it. -/
theorem order_created_with_nonzero_total :
    orderSerializerSave [⟨1, 700, true⟩] 1 [⟨1, 2⟩]
      = .ok ⟨1, .pending, 1400, [⟨1, 2⟩]⟩
    ∧ (1400 : Int) ≠ 0 := by
  decide

/-- C6 counterexample: the manager cancel endpoint moves an order whose
status is Completed to Cancelled — Completed is not terminal. -/
theorem completed_order_cancelled :
    (⟨1, .completed, 1400, []⟩ : Order).status = .completed
    ∧ (cancelEndpoint ⟨[], [⟨1, .completed, 1400, []⟩]⟩ 1).1.orders
        = [⟨1, .cancelled, 1400, []⟩]
    ∧ Status.cancelled ≠ Status.completed := by
  decide

/-- C6 (amended): `mark_status` validates only that the target string is
a recognized status and never inspects the current status, and the
manager complete/cancel endpoints apply it unconditionally to the
fetched order — so Completed and Cancelled are not terminal states. -/
theorem mark_status_no_terminal_guard :
    (∀ (o : Order) (s : String) (st : Status), statusOfString? s = some st →
      o.mark_status s = .ok (o.setStatus st))
    ∧ (∀ (db : DB) (pk : Nat) (o : Order),
        db.orders.find? (fun x => x.id == pk) = some o →
        cancelEndpoint db pk =
          ({ db with orders := replaceOrder db.orders (o.setStatus .cancelled) },
            .ok "cancelled"))
    ∧ (∀ (db : DB) (pk : Nat) (o : Order),
        db.orders.find? (fun x => x.id == pk) = some o →
        completeEndpoint db pk =
          ({ db with orders := replaceOrder db.orders (o.setStatus .completed) },
            .ok "completed")) := by
  refine ⟨fun o s st h => ?_, fun db pk o h => ?_, fun db pk o h => ?_⟩
  · unfold Order.mark_status
    rw [h]
  · unfold cancelEndpoint
    rw [h]
    rfl
  · unfold completeEndpoint
    rw [h]
    rfl

theorem mark_status_no_terminal_guard_witness :
    (⟨1, .completed, 0, []⟩ : Order).mark_status "CANCELLED"
      = .ok ((⟨1, .completed, 0, []⟩ : Order).setStatus .cancelled)
    ∧ cancelEndpoint ⟨[], [⟨1, .completed, 0, []⟩]⟩ 1
      = (⟨[], replaceOrder [⟨1, .completed, 0, []⟩]
            ((⟨1, .completed, 0, []⟩ : Order).setStatus .cancelled)⟩,
          .ok "cancelled") :=
  ⟨mark_status_no_terminal_guard.1 ⟨1, .completed, 0, []⟩ "CANCELLED"
      .cancelled rfl,
   mark_status_no_terminal_guard.2.1 ⟨[], [⟨1, .completed, 0, []⟩]⟩ 1
      ⟨1, .completed, 0, []⟩ rfl⟩

/-- C1: evaluating the order-placement endpoint at a failing input (one
line requesting 10 with stock 5): the DRF ValidationError raised after
the Cancelled write escapes the same `transaction.atomic` block, so the
whole request state — the order row and its Cancelled status with it —
is rolled back; stock is unchanged and the typed error is surfaced, but
no Cancelled order remains. -/
theorem perform_create_failure_rolls_back_everything :
    perform_create [⟨1, 700, true⟩] 1 [⟨1, 10⟩] ⟨[⟨1, 5, 1⟩], []⟩
      = (⟨[⟨1, 5, 1⟩], []⟩,
          .error (.validationError (.insufficientStock 1 10 5)))
    ∧ (⟨[⟨1, 5, 1⟩], []⟩ : DB).orders = [] := by
  decide

/-- C8: the two fulfillments of the last portion, serialized by the
`select_for_update` row lock, in both orders: the first request ends
Processing, the final quantity is 0, and the second fails with
InsufficientStock — but its order is erased by the enclosing rollback
instead of remaining Cancelled. -/
theorem concurrent_last_portion_outcome :
    (perform_create [⟨1, 700, true⟩] 1 [⟨1, 1⟩] ⟨[⟨1, 1, 5⟩], []⟩
      = (⟨[⟨1, 0, 5⟩], [⟨1, .processing, 700, [⟨1, 1⟩]⟩]⟩,
          .ok ⟨1, .processing, 700, [⟨1, 1⟩]⟩))
    ∧ (perform_create [⟨1, 700, true⟩] 2 [⟨1, 1⟩]
        ⟨[⟨1, 0, 5⟩], [⟨1, .processing, 700, [⟨1, 1⟩]⟩]⟩
      = (⟨[⟨1, 0, 5⟩], [⟨1, .processing, 700, [⟨1, 1⟩]⟩]⟩,
          .error (.validationError (.insufficientStock 1 1 0))))
    ∧ (perform_create [⟨1, 700, true⟩] 2 [⟨1, 1⟩] ⟨[⟨1, 1, 5⟩], []⟩
      = (⟨[⟨1, 0, 5⟩], [⟨2, .processing, 700, [⟨1, 1⟩]⟩]⟩,
          .ok ⟨2, .processing, 700, [⟨1, 1⟩]⟩))
    ∧ (perform_create [⟨1, 700, true⟩] 1 [⟨1, 1⟩]
        ⟨[⟨1, 0, 5⟩], [⟨2, .processing, 700, [⟨1, 1⟩]⟩]⟩
      = (⟨[⟨1, 0, 5⟩], [⟨2, .processing, 700, [⟨1, 1⟩]⟩]⟩,
          .error (.validationError (.insufficientStock 1 1 0)))) := by
  decide

end RMS
